import Mathlib

/-!
Verification of the collision-object core of the GamePlay engine, as
declared in gameplay/src/PhysicsCollisionObject.h.  The header declares
the interfaces only (the class, its nested CollisionPair, CollisionListener
and PhysicsMotionState types, and the listener registry operations); the
behaviour of each operation is modelled from the specification, as noted
in the doc comment of each definition.  Collision objects are identified by
their address, modelled as a natural number.
-/

namespace gameplay

/-- CollisionPair from PhysicsCollisionObject.h (lines 52-78): a pair of
collision objects, stored as the identities (addresses) of the public
fields objectA and objectB, in construction order. -/
structure CollisionPair where
  objectA : Nat
  objectB : Nat
  deriving DecidableEq

/-- Modelled from the spec: the canonical identity of the unordered pair,
"compare by the smaller-address/smaller-identity member first, then the
other" -- the smaller identity first, the larger second. -/
def pairKey (p : CollisionPair) : Nat × Nat :=
  (min p.objectA p.objectB, max p.objectA p.objectB)

/-- Modelled from the spec: CollisionPair.operator< (declared at
PhysicsCollisionObject.h line 67, implementation not in the header).  A
deterministic total order on the canonical keys: compare the
smaller-identity member first, then the other. -/
def pairLt (p q : CollisionPair) : Prop :=
  (pairKey p).1 < (pairKey q).1 ∨
    ((pairKey p).1 = (pairKey q).1 ∧ (pairKey p).2 < (pairKey q).2)

instance : DecidableRel pairLt := fun p q =>
  inferInstanceAs (Decidable ((pairKey p).1 < (pairKey q).1 ∨
    ((pairKey p).1 = (pairKey q).1 ∧ (pairKey p).2 < (pairKey q).2)))

/-- Two pairs reference the same unordered set of two objects. -/
def sameSet (p q : CollisionPair) : Bool :=
  decide (pairKey p = pairKey q)

theorem pairKey_comm (X Y : Nat) :
    pairKey (CollisionPair.mk X Y) = pairKey (CollisionPair.mk Y X) := by
  simp [pairKey, Nat.min_comm, Nat.max_comm]

/-- Claim C1: for all collision objects X and Y, CollisionPair(X, Y) and
CollisionPair(Y, X) compare equal under the pair ordering (neither is less
than the other), have the same canonical key, and behave identically as
keys in an ordered associative map: they compare the same way against
every other pair. -/
theorem collisionPair_symmetric (X Y : Nat) :
    pairKey (CollisionPair.mk X Y) = pairKey (CollisionPair.mk Y X) ∧
    ¬ pairLt (CollisionPair.mk X Y) (CollisionPair.mk Y X) ∧
    ¬ pairLt (CollisionPair.mk Y X) (CollisionPair.mk X Y) ∧
    ∀ r : CollisionPair,
      (pairLt (CollisionPair.mk X Y) r ↔ pairLt (CollisionPair.mk Y X) r) ∧
      (pairLt r (CollisionPair.mk X Y) ↔ pairLt r (CollisionPair.mk Y X)) := by
  have hk := pairKey_comm X Y
  refine ⟨hk, ?_, ?_, ?_⟩
  · unfold pairLt
    rw [hk]
    omega
  · unfold pairLt
    rw [hk]
    omega
  · intro r
    constructor
    · unfold pairLt
      rw [hk]
    · unfold pairLt
      rw [hk]

/-- Witness for C1 at a concrete input. -/
theorem collisionPair_symmetric_witness :
    pairKey (CollisionPair.mk 5 9) = pairKey (CollisionPair.mk 9 5) :=
  (collisionPair_symmetric 5 9).1

/-- Claim C2: the operator< ordering over CollisionPair values is a strict
total order: irreflexive, transitive, antisymmetric (asymmetric), and any
two pairs that are distinct as unordered object sets are comparable. -/
theorem pairLt_strict_total_order :
    (∀ p : CollisionPair, ¬ pairLt p p) ∧
    (∀ p q r : CollisionPair, pairLt p q → pairLt q r → pairLt p r) ∧
    (∀ p q : CollisionPair, pairLt p q → ¬ pairLt q p) ∧
    (∀ p q : CollisionPair, sameSet p q = false → pairLt p q ∨ pairLt q p) := by
  refine ⟨?_, ?_, ?_, ?_⟩
  · intro p h
    unfold pairLt at h
    omega
  · intro p q r h1 h2
    unfold pairLt at h1 h2 ⊢
    omega
  · intro p q h1 h2
    unfold pairLt at h1 h2
    omega
  · intro p q h
    have hne : pairKey p ≠ pairKey q := by
      simpa [sameSet] using h
    unfold pairLt
    generalize hk1 : pairKey p = kp at hne ⊢
    generalize hk2 : pairKey q = kq at hne ⊢
    obtain ⟨a, b⟩ := kp
    obtain ⟨c, d⟩ := kq
    simp only [ne_eq, Prod.mk.injEq, not_and] at hne
    omega

/-- Witness for C2 at concrete inputs: transitivity applied to concrete
pairs, the hypotheses discharged by evaluation. -/
theorem pairLt_strict_total_order_witness :
    pairLt (CollisionPair.mk 1 2) (CollisionPair.mk 2 4) :=
  pairLt_strict_total_order.2.1 (CollisionPair.mk 1 2) (CollisionPair.mk 3 1)
    (CollisionPair.mk 2 4) (by decide) (by decide)

/-- PhysicsCollisionObject::Type from PhysicsCollisionObject.h lines 26-47:
RIGID_BODY, CHARACTER, GHOST_OBJECT, and the NONE sentinel meaning "no
collision object".  (Named ObjectType here because Type is reserved.) -/
inductive ObjectType where
  | RIGID_BODY
  | CHARACTER
  | GHOST_OBJECT
  | NONE
  deriving DecidableEq

/-- Modelled from the spec: the concrete collision-object variants
{RigidBody, Character, GhostObject}; the implementations of the concrete
classes are not in the header.  A variant carries its identity (address)
and, for the simulated variants, the kinematic flag fixed by its
construction parameters (a rigid body with zero or infinite mass is
kinematic; finite positive mass is dynamic). -/
inductive ConcreteObject where
  | rigidBody (id : Nat) (kinematic : Bool)
  | character (id : Nat) (kinematic : Bool)
  | ghostObject (id : Nat)
  deriving DecidableEq

/-- Modelled from the spec: getType (pure virtual at
PhysicsCollisionObject.h line 136) returns the fixed variant tag,
implemented by each concrete variant. -/
def getType : ConcreteObject → ObjectType
  | ConcreteObject.rigidBody _ _ => ObjectType.RIGID_BODY
  | ConcreteObject.character _ _ => ObjectType.CHARACTER
  | ConcreteObject.ghostObject _ => ObjectType.GHOST_OBJECT

/-- A collision object together with its enabled flag (field _enabled of
PhysicsCollisionObject.h line 311). -/
structure PhysicsObject where
  variant : ConcreteObject
  enabled : Bool
  deriving DecidableEq

/-- Modelled from the spec: isKinematic (declared at
PhysicsCollisionObject.h line 163): the node transform is authoritative;
false for GhostObject. -/
def isKinematic (o : PhysicsObject) : Bool :=
  match o.variant with
  | ConcreteObject.rigidBody _ k => k
  | ConcreteObject.character _ k => k
  | ConcreteObject.ghostObject _ => false

/-- Modelled from the spec: isDynamic (declared at
PhysicsCollisionObject.h line 173): the simulator transform is
authoritative; the negation of kinematic for simulated variants, false
for GhostObject. -/
def isDynamic (o : PhysicsObject) : Bool :=
  match o.variant with
  | ConcreteObject.rigidBody _ k => !k
  | ConcreteObject.character _ k => !k
  | ConcreteObject.ghostObject _ => false

/-- Claim C4: for every enabled RigidBody or Character collision object,
isKinematic() and isDynamic() disagree (exactly one is true); for every
GhostObject, both return false. -/
theorem classification_exclusivity :
    (∀ o : PhysicsObject, o.enabled = true →
      (getType o.variant = ObjectType.RIGID_BODY ∨
        getType o.variant = ObjectType.CHARACTER) →
      isKinematic o ≠ isDynamic o) ∧
    (∀ o : PhysicsObject, getType o.variant = ObjectType.GHOST_OBJECT →
      isKinematic o = false ∧ isDynamic o = false) := by
  constructor
  · intro o _ hty
    cases h : o.variant with
    | rigidBody id k => simp [isKinematic, isDynamic, h]
    | character id k => simp [isKinematic, isDynamic, h]
    | ghostObject id => rw [h] at hty; simp [getType] at hty
  · intro o hty
    cases h : o.variant with
    | rigidBody id k => rw [h] at hty; simp [getType] at hty
    | character id k => rw [h] at hty; simp [getType] at hty
    | ghostObject id => simp [isKinematic, isDynamic, h]

/-- Witness for C4 at a concrete input: an enabled kinematic rigid body. -/
theorem classification_exclusivity_witness :
    isKinematic (PhysicsObject.mk (ConcreteObject.rigidBody 0 true) true) ≠
      isDynamic (PhysicsObject.mk (ConcreteObject.rigidBody 0 true) true) :=
  classification_exclusivity.1
    (PhysicsObject.mk (ConcreteObject.rigidBody 0 true) true)
    rfl (Or.inl rfl)

/-- Claim C10: getType() of every constructed concrete collision object is
RIGID_BODY, CHARACTER or GHOST_OBJECT respectively, and is never the NONE
sentinel. -/
theorem getType_never_none :
    (∀ id k, getType (ConcreteObject.rigidBody id k) = ObjectType.RIGID_BODY) ∧
    (∀ id k, getType (ConcreteObject.character id k) = ObjectType.CHARACTER) ∧
    (∀ id, getType (ConcreteObject.ghostObject id) = ObjectType.GHOST_OBJECT) ∧
    (∀ o : ConcreteObject, decide (getType o = ObjectType.NONE) = false) := by
  refine ⟨fun id k => rfl, fun id k => rfl, fun id => rfl, fun o => ?_⟩
  cases o <;> rfl

/-- Witness for C10 at a concrete input. -/
theorem getType_never_none_witness :
    decide (getType (ConcreteObject.ghostObject 7) = ObjectType.NONE) = false :=
  getType_never_none.2.2.2 (ConcreteObject.ghostObject 7)

/-- A world transform, modelled by its translation component (the
center-of-mass offset of PhysicsMotionState is a pure translation, a
Vector3; see PhysicsCollisionObject.h line 252).  Components are exact
integers so the round trip is checked exactly. -/
structure Transform3 where
  x : Int
  y : Int
  z : Int
  deriving DecidableEq

/-- Composition of translations. -/
def tcompose (a b : Transform3) : Transform3 :=
  Transform3.mk (a.x + b.x) (a.y + b.y) (a.z + b.z)

/-- Inverse translation. -/
def tinv (a : Transform3) : Transform3 :=
  Transform3.mk (-a.x) (-a.y) (-a.z)

/-- PhysicsMotionState (PhysicsCollisionObject.h lines 240-279): the
center-of-mass offset fixed at construction and the cached (mutable)
world transform. -/
structure PhysicsMotionState where
  centerOfMassOffset : Transform3
  worldTransform : Transform3
  deriving DecidableEq

/-- Modelled from the spec: updateTransformFromNode (declared at
PhysicsCollisionObject.h line 272, implementation not in the header):
reads the current world transform of the node (passed here explicitly), applies
the inverse center-of-mass offset, and caches it. -/
def updateTransformFromNode (s : PhysicsMotionState) (nodeTransform : Transform3) :
    PhysicsMotionState :=
  PhysicsMotionState.mk s.centerOfMassOffset
    (tcompose (tinv s.centerOfMassOffset) nodeTransform)

/-- Modelled from the spec: getWorldTransform, the transform
pull (declared at PhysicsCollisionObject.h line 262): returns the cached
world transform, which carries the center-of-mass offset correction. -/
def getWorldTransform (s : PhysicsMotionState) : Transform3 :=
  s.worldTransform

/-- Claim C6: for a kinematic object with node world transform T and fixed
center-of-mass offset c, updateTransformFromNode() followed by the
pull by the simulator (getWorldTransform) yields T adjusted by c (namely T with
the inverse offset applied), and undoing that offset adjustment (composing
the offset back on) recovers T exactly: the round trip through the motion
state preserves the node transform modulo the offset. -/
theorem motionState_round_trip (c t w : Transform3) :
    getWorldTransform (updateTransformFromNode (PhysicsMotionState.mk c w) t) =
      tcompose (tinv c) t ∧
    tcompose c
      (getWorldTransform (updateTransformFromNode (PhysicsMotionState.mk c w) t)) =
      t := by
  constructor
  · rfl
  · obtain ⟨cx, cy, cz⟩ := c
    obtain ⟨tx, ty, tz⟩ := t
    simp only [getWorldTransform, updateTransformFromNode, tcompose, tinv,
      Transform3.mk.injEq]
    refine ⟨?_, ?_, ?_⟩ <;> ring

/-- Witness for C6 at a concrete input. -/
theorem motionState_round_trip_witness :
    tcompose (Transform3.mk 1 2 3)
      (getWorldTransform (updateTransformFromNode
        (PhysicsMotionState.mk (Transform3.mk 1 2 3) (Transform3.mk 0 0 0))
        (Transform3.mk 10 20 30))) = Transform3.mk 10 20 30 :=
  (motionState_round_trip (Transform3.mk 1 2 3) (Transform3.mk 10 20 30)
    (Transform3.mk 0 0 0)).2

/-- A listener registration: a (listener-reference, optional-filter-object)
pair, as registered by addCollisionListener (PhysicsCollisionObject.h
line 195).  Listeners are identified by address, modelled as a Nat. -/
structure Registration where
  listener : Nat
  filterObj : Option Nat
  deriving DecidableEq

/-- Modelled from the spec: removal matches on (listener-reference, filter)
identity. -/
def regMatches (l : Nat) (f : Option Nat) (r : Registration) : Bool :=
  decide (r.listener = l) && decide (r.filterObj = f)

/-- Modelled from the spec: addCollisionListener (declared at
PhysicsCollisionObject.h line 195): appends the registration to the
registry; no deduplication is performed and insertion order is
preserved. -/
def addCollisionListener (regs : List Registration) (l : Nat) (f : Option Nat) :
    List Registration :=
  regs ++ [Registration.mk l f]

/-- Modelled from the spec: removeCollisionListener (declared at
PhysicsCollisionObject.h line 203): removes the registration matching on
(listener-reference, filter) identity; removing a registration that does
not exist is a no-op. -/
def removeCollisionListener : List Registration → Nat → Option Nat → List Registration
  | [], _, _ => []
  | r :: rest, l, f =>
    if regMatches l f r then rest else r :: removeCollisionListener rest l f

/-- Whether a collision pair contains the given object. -/
def pairContains (p : CollisionPair) (o : Nat) : Bool :=
  decide (p.objectA = o) || decide (p.objectB = o)

/-- Modelled from the spec: the filter of a registration accepts the pair of an event
when the filter is absent, or when the pair includes the filtered
object. -/
def filterAccepts (p : CollisionPair) : Option Nat → Bool
  | none => true
  | some f => pairContains p f

/-- Modelled from the spec: the registrations of the owning object that are
invoked for an event with the given collision pair: the listeners of the owner
whose filters accept the pair, in registration order; none when the pair
does not involve the owner. -/
def invokedListeners (owner : Nat) (regs : List Registration) (p : CollisionPair) :
    List Registration :=
  if pairContains p owner then
    regs.filter (fun r => filterAccepts p r.filterObj)
  else []

/-- Claim C5: a listener registered on object A with filter object F is
invoked only for events whose collision pair contains both A and F, and a
listener registered on A with no filter is invoked for every event
involving A, regardless of the counterpart object. -/
theorem listener_filtering :
    (∀ (owner : Nat) (regs : List Registration) (p : CollisionPair)
      (r : Registration), r ∈ invokedListeners owner regs p →
      pairContains p owner = true ∧
      ∀ f, r.filterObj = some f → pairContains p f = true) ∧
    (∀ (owner : Nat) (regs : List Registration) (p : CollisionPair)
      (r : Registration), r ∈ regs → r.filterObj = none →
      pairContains p owner = true → r ∈ invokedListeners owner regs p) := by
  constructor
  · intro owner regs p r hmem
    unfold invokedListeners at hmem
    by_cases hc : pairContains p owner = true
    · rw [if_pos hc] at hmem
      refine ⟨hc, fun f hf => ?_⟩
      have hacc := (List.mem_filter.mp hmem).2
      rw [hf] at hacc
      exact hacc
    · rw [if_neg hc] at hmem
      exact absurd hmem (List.not_mem_nil r)
  · intro owner regs p r hmem hnone hc
    unfold invokedListeners
    rw [if_pos hc]
    exact List.mem_filter.mpr ⟨hmem, by rw [hnone]; rfl⟩

/-- Witness for C5 at a concrete input: an unfiltered registration is
invoked for an event involving the owner. -/
theorem listener_filtering_witness :
    Registration.mk 7 none ∈
      invokedListeners 1 [Registration.mk 7 none] (CollisionPair.mk 1 2) :=
  listener_filtering.2 1 [Registration.mk 7 none] (CollisionPair.mk 1 2)
    (Registration.mk 7 none) (List.mem_singleton.mpr rfl) rfl (by decide)

/-- Claim C7: adding the same (listener, filter-object) pair twice results
in that listener being invoked twice per matching collision event:
addCollisionListener performs no deduplication, so the delivery count for
that registration rises by exactly two. -/
theorem no_listener_dedup (owner l : Nat) (f : Option Nat)
    (regs : List Registration) (p : CollisionPair)
    (hc : pairContains p owner = true)
    (hf : filterAccepts p f = true) :
    List.count (Registration.mk l f)
      (invokedListeners owner
        (addCollisionListener (addCollisionListener regs l f) l f) p) =
    List.count (Registration.mk l f) (invokedListeners owner regs p) + 2 := by
  have he : filterAccepts p (Registration.mk l f).filterObj = true := hf
  simp [invokedListeners, addCollisionListener, hc, List.filter_append,
    List.count_append, List.filter_cons, he, List.count_cons]

/-- Witness for C7 at a concrete input. -/
theorem no_listener_dedup_witness :
    List.count (Registration.mk 5 none)
      (invokedListeners 1
        (addCollisionListener (addCollisionListener [] 5 none) 5 none)
        (CollisionPair.mk 1 2)) =
    List.count (Registration.mk 5 none)
      (invokedListeners 1 [] (CollisionPair.mk 1 2)) + 2 :=
  no_listener_dedup 1 5 none [] (CollisionPair.mk 1 2) (by decide) (by decide)

/-- Claim C8: removing a (listener, filter-object) registration with no
matching registration leaves the registry unchanged (a no-op, no error
signalled); removing with no filter argument removes the unfiltered
registration. -/
theorem remove_listener_no_op :
    (∀ (regs : List Registration) (l : Nat) (f : Option Nat),
      (∀ r ∈ regs, regMatches l f r = false) →
      removeCollisionListener regs l f = regs) ∧
    (∀ (pre post : List Registration) (l : Nat),
      (∀ r ∈ pre, regMatches l none r = false) →
      removeCollisionListener (pre ++ Registration.mk l none :: post) l none =
        pre ++ post) := by
  constructor
  · intro regs l f h
    induction regs with
    | nil => rfl
    | cons r rest ih =>
      have hr : regMatches l f r = false := h r (List.mem_cons_self r rest)
      simp only [removeCollisionListener, hr, Bool.false_eq_true, if_false]
      rw [ih (fun a ha => h a (List.mem_cons_of_mem r ha))]
  · intro pre post l h
    induction pre with
    | nil =>
      have hm : regMatches l none (Registration.mk l none) = true := by
        simp [regMatches]
      simp [removeCollisionListener, hm]
    | cons r rest ih =>
      have hr : regMatches l none r = false := h r (List.mem_cons_self r rest)
      rw [List.cons_append]
      simp only [removeCollisionListener, hr, Bool.false_eq_true, if_false]
      rw [ih (fun a ha => h a (List.mem_cons_of_mem r ha)), List.cons_append]

/-- Witness for C8 at a concrete input: removing an absent unfiltered
registration leaves a registry with only a filtered entry unchanged. -/
theorem remove_listener_no_op_witness :
    removeCollisionListener [Registration.mk 1 (some 2)] 1 none =
      [Registration.mk 1 (some 2)] :=
  remove_listener_no_op.1 [Registration.mk 1 (some 2)] 1 none (by decide)

/-- CollisionListener::EventType from PhysicsCollisionObject.h lines
93-104: COLLIDING is fired when two bodies start colliding, NOT_COLLIDING
when they no longer collide. -/
inductive EventType where
  | COLLIDING
  | NOT_COLLIDING
  deriving DecidableEq

/-- Whether a tracked set contains a pair referencing the same unordered
object set. -/
def pairMem (p : CollisionPair) (s : List CollisionPair) : Bool :=
  s.any (fun q => sameSet p q)

/-- Multiplicity of a pair (as an unordered object set) in a list of
pairs. -/
def countPair (p : CollisionPair) (s : List CollisionPair) : Nat :=
  s.countP (fun q => sameSet p q)

/-- Modelled from the spec: one step of the collision event dispatch
protocol (the dispatch bookkeeping is not in the header, only
CollisionListener::EventType is): each pair present this step but absent
from the tracked set of the previous step produces a COLLIDING event; each pair
present in the previous tracked set but absent this step produces a
NOT_COLLIDING event. -/
def stepEvents (prev curr : List CollisionPair) : List (CollisionPair × EventType) :=
  (curr.filter (fun q => !pairMem q prev)).map (fun q => (q, EventType.COLLIDING)) ++
    (prev.filter (fun q => !pairMem q curr)).map (fun q => (q, EventType.NOT_COLLIDING))

/-- Modelled from the spec: the dispatch protocol run over consecutive
simulation steps; after each step the tracked set is replaced by the
set of the current step. -/
def runEvents (prev : List CollisionPair) :
    List (List CollisionPair) → List (CollisionPair × EventType)
  | [] => []
  | c :: cs => stepEvents prev c ++ runEvents c cs

/-- Number of events delivered for a pair (as an unordered object set) with
the given event kind. -/
def countEvents (p : CollisionPair) (e : EventType)
    (evs : List (CollisionPair × EventType)) : Nat :=
  evs.countP (fun pe => sameSet p pe.1 && decide (pe.2 = e))

theorem sameSet_congr {p q : CollisionPair} (h : sameSet p q = true)
    (r : CollisionPair) : sameSet q r = sameSet p r := by
  have hk : pairKey p = pairKey q := by simpa [sameSet] using h
  simp [sameSet, hk]

theorem pairMem_congr {p q : CollisionPair} (h : sameSet p q = true)
    (s : List CollisionPair) : pairMem q s = pairMem p s := by
  unfold pairMem
  congr 1
  funext r
  exact sameSet_congr h r

theorem pairMem_false_iff (p : CollisionPair) (s : List CollisionPair) :
    pairMem p s = false ↔ countPair p s = 0 := by
  simp [pairMem, countPair]

theorem pairMem_true_of_one {p : CollisionPair} {s : List CollisionPair}
    (h : countPair p s = 1) : pairMem p s = true := by
  cases hm : pairMem p s
  · rw [pairMem_false_iff] at hm
    omega
  · rfl

theorem countEvents_append (p : CollisionPair) (e : EventType)
    (xs ys : List (CollisionPair × EventType)) :
    countEvents p e (xs ++ ys) = countEvents p e xs + countEvents p e ys := by
  simp [countEvents]

theorem countEvents_map (p : CollisionPair) (e e2 : EventType)
    (s : List CollisionPair) :
    (s.map (fun q => (q, e2))).countP
        (fun pe => sameSet p pe.1 && decide (pe.2 = e)) =
      if e2 = e then countPair p s else 0 := by
  induction s with
  | nil => by_cases h : e2 = e <;> simp [countPair, h]
  | cons a s ih =>
    rw [List.map_cons, List.countP_cons, ih]
    by_cases h : e2 = e <;> by_cases hs : sameSet p a = true <;>
      simp [h, hs, countPair, List.countP_cons]

theorem countPair_filter_not_mem (p : CollisionPair) :
    ∀ (s t : List CollisionPair),
    countPair p (s.filter (fun q => !pairMem q t)) =
      if pairMem p t = true then 0 else countPair p s := by
  intro s t
  induction s with
  | nil => cases hp : pairMem p t <;> simp [countPair]
  | cons a s ih =>
    by_cases hs : sameSet p a = true
    · have hm : pairMem a t = pairMem p t := pairMem_congr hs t
      cases hp : pairMem p t
      · rw [hp] at hm
        simp only [List.filter_cons, hm, Bool.not_false, if_true]
        rw [countPair, List.countP_cons]
        rw [countPair] at ih
        rw [ih, hp]
        simp [hs, countPair, List.countP_cons]
      · rw [hp] at hm
        simp only [List.filter_cons, hm, Bool.not_true, Bool.false_eq_true,
          if_false]
        rw [ih, hp]
        simp
    · have hsf : sameSet p a = false := by
        cases hx : sameSet p a
        · rfl
        · exact absurd hx hs
      cases hat : pairMem a t
      · simp only [List.filter_cons, hat, Bool.not_false, if_true]
        rw [countPair, List.countP_cons]
        rw [countPair] at ih
        rw [ih]
        cases hp : pairMem p t <;> simp [hsf, countPair, List.countP_cons]
      · simp only [List.filter_cons, hat, Bool.not_true, Bool.false_eq_true,
          if_false]
        rw [ih]
        cases hp : pairMem p t <;> simp [hsf, countPair, List.countP_cons]

theorem stepEvents_count_colliding (p : CollisionPair)
    (prev curr : List CollisionPair) :
    countEvents p EventType.COLLIDING (stepEvents prev curr) =
      if pairMem p prev = true then 0 else countPair p curr := by
  unfold countEvents stepEvents
  rw [List.countP_append, countEvents_map, countEvents_map]
  simp only [reduceCtorEq, if_true, if_false, Nat.add_zero]
  rw [countPair_filter_not_mem]

theorem stepEvents_count_not_colliding (p : CollisionPair)
    (prev curr : List CollisionPair) :
    countEvents p EventType.NOT_COLLIDING (stepEvents prev curr) =
      if pairMem p curr = true then 0 else countPair p prev := by
  unfold countEvents stepEvents
  rw [List.countP_append, countEvents_map, countEvents_map]
  simp only [reduceCtorEq, if_true, if_false, Nat.zero_add]
  rw [countPair_filter_not_mem]

theorem run_steady (p : CollisionPair) :
    ∀ (cs : List (List CollisionPair)) (prev : List CollisionPair),
    countPair p prev = 1 → (∀ c ∈ cs, countPair p c = 1) →
    countEvents p EventType.COLLIDING (runEvents prev cs) = 0 ∧
    countEvents p EventType.NOT_COLLIDING (runEvents prev cs) = 0 := by
  intro cs
  induction cs with
  | nil => intro prev _ _; simp [runEvents, countEvents]
  | cons c cs ih =>
    intro prev h1 h2
    have hc1 : countPair p c = 1 := h2 c (List.mem_cons_self c cs)
    have hrest : ∀ x ∈ cs, countPair p x = 1 :=
      fun x hx => h2 x (List.mem_cons_of_mem c hx)
    have hmp : pairMem p prev = true := pairMem_true_of_one h1
    have hmc : pairMem p c = true := pairMem_true_of_one hc1
    have hih := ih c hc1 hrest
    constructor
    · rw [runEvents, countEvents_append, stepEvents_count_colliding,
        if_pos hmp, hih.1]
    · rw [runEvents, countEvents_append, stepEvents_count_not_colliding,
        if_pos hmc, hih.2]

theorem run_leave (p : CollisionPair) (last : List CollisionPair)
    (hlast : countPair p last = 0) :
    ∀ (cs : List (List CollisionPair)) (prev : List CollisionPair),
    countPair p prev = 1 → (∀ c ∈ cs, countPair p c = 1) →
    countEvents p EventType.COLLIDING (runEvents prev (cs ++ [last])) = 0 ∧
    countEvents p EventType.NOT_COLLIDING (runEvents prev (cs ++ [last])) = 1 := by
  intro cs
  induction cs with
  | nil =>
    intro prev h1 _
    have hmp : pairMem p prev = true := pairMem_true_of_one h1
    have hml : pairMem p last = false := (pairMem_false_iff p last).mpr hlast
    rw [List.nil_append]
    constructor
    · rw [runEvents, runEvents, countEvents_append, stepEvents_count_colliding,
        if_pos hmp]
      simp [countEvents]
    · rw [runEvents, runEvents, countEvents_append,
        stepEvents_count_not_colliding, hml]
      simp [countEvents, h1]
  | cons c cs ih =>
    intro prev h1 h2
    have hc1 : countPair p c = 1 := h2 c (List.mem_cons_self c cs)
    have hrest : ∀ x ∈ cs, countPair p x = 1 :=
      fun x hx => h2 x (List.mem_cons_of_mem c hx)
    have hmp : pairMem p prev = true := pairMem_true_of_one h1
    have hmc : pairMem p c = true := pairMem_true_of_one hc1
    have hih := ih c hc1 hrest
    rw [List.cons_append]
    constructor
    · rw [runEvents, countEvents_append, stepEvents_count_colliding,
        if_pos hmp, hih.1]
    · rw [runEvents, countEvents_append, stepEvents_count_not_colliding,
        if_pos hmc, hih.2]

/-- Claim C3: if two objects remain in contact across N consecutive steps
(the first contact step followed by the remaining steps), exactly one
COLLIDING event is delivered for that pair, with no repeated COLLIDING
events and no NOT_COLLIDING events until contact ends, and exactly one
NOT_COLLIDING event is delivered on the step at which the pair leaves the
touching set. -/
theorem dispatch_steady_contact (p : CollisionPair)
    (prev first last : List CollisionPair) (rest : List (List CollisionPair))
    (h0 : countPair p prev = 0)
    (hfirst : countPair p first = 1)
    (hrest : ∀ c ∈ rest, countPair p c = 1)
    (hlast : countPair p last = 0) :
    countEvents p EventType.COLLIDING
      (runEvents prev ((first :: rest) ++ [last])) = 1 ∧
    countEvents p EventType.NOT_COLLIDING
      (runEvents prev ((first :: rest) ++ [last])) = 1 ∧
    countEvents p EventType.NOT_COLLIDING (runEvents prev (first :: rest)) = 0 := by
  have hm0 : pairMem p prev = false := (pairMem_false_iff p prev).mpr h0
  have hmf : pairMem p first = true := pairMem_true_of_one hfirst
  have hleave := run_leave p last hlast rest first hfirst hrest
  have hsteady := run_steady p rest first hfirst hrest
  refine ⟨?_, ?_, ?_⟩
  · rw [List.cons_append, runEvents, countEvents_append,
      stepEvents_count_colliding, hm0, hleave.1]
    simp [hfirst]
  · rw [List.cons_append, runEvents, countEvents_append,
      stepEvents_count_not_colliding, if_pos hmf, hleave.2]
  · rw [runEvents, countEvents_append, stepEvents_count_not_colliding,
      if_pos hmf, hsteady.2]

/-- Witness for C3 at a concrete input: a pair touching for two steps, then
leaving. -/
theorem dispatch_steady_contact_witness :
    countEvents (CollisionPair.mk 1 2) EventType.COLLIDING
      (runEvents []
        (([CollisionPair.mk 1 2] :: [[CollisionPair.mk 2 1]]) ++ [[]])) = 1 ∧
    countEvents (CollisionPair.mk 1 2) EventType.NOT_COLLIDING
      (runEvents []
        (([CollisionPair.mk 1 2] :: [[CollisionPair.mk 2 1]]) ++ [[]])) = 1 ∧
    countEvents (CollisionPair.mk 1 2) EventType.NOT_COLLIDING
      (runEvents [] ([CollisionPair.mk 1 2] :: [[CollisionPair.mk 2 1]])) = 0 :=
  dispatch_steady_contact (CollisionPair.mk 1 2) [] [CollisionPair.mk 1 2] []
    [[CollisionPair.mk 2 1]] (by decide) (by decide) (by decide) (by decide)

/-- The reflexive closure of the pair ordering, used to iterate tracked
pairs in a fixed total order. -/
def pairLe (p q : CollisionPair) : Prop :=
  pairLt p q ∨ pairKey p = pairKey q

instance : DecidableRel pairLe := fun p q =>
  inferInstanceAs (Decidable (pairLt p q ∨ pairKey p = pairKey q))

theorem pairKey_eq_iff (p q : CollisionPair) :
    pairKey p = pairKey q ↔
      (pairKey p).1 = (pairKey q).1 ∧ (pairKey p).2 = (pairKey q).2 := by
  generalize pairKey p = a
  generalize pairKey q = b
  obtain ⟨a1, a2⟩ := a
  obtain ⟨b1, b2⟩ := b
  simp

instance : IsTrans CollisionPair pairLe :=
  ⟨by
    intro a b c hab hbc
    unfold pairLe pairLt at hab hbc ⊢
    rw [pairKey_eq_iff] at hab hbc ⊢
    omega⟩

instance : IsTotal CollisionPair pairLe :=
  ⟨by
    intro a b
    unfold pairLe pairLt
    rw [pairKey_eq_iff, pairKey_eq_iff]
    omega⟩

instance : IsAntisymm CollisionPair pairLt :=
  ⟨by
    intro a b h1 h2
    exfalso
    unfold pairLt at h1 h2
    omega⟩

/-- Modelled from the spec: the tracked-pairs structure is iterated in the
fixed total order given by the CollisionPair ordering; sorting an
enumeration of the tracked set yields that iteration order. -/
def sortPairs (l : List CollisionPair) : List CollisionPair :=
  List.insertionSort pairLe l

/-- Concatenation of a list of delivery lists, in order. -/
def concatAll {α : Type} : List (List α) → List α
  | [] => []
  | x :: xs => x ++ concatAll xs

/-- Modelled from the spec: the listeners invoked for the event of one pair: the
listeners of both participants, each in registration order, the
registry of the smaller-identity participant first.  The registry is a map from
object identity to its registration list. -/
def listenersFor (regs : Nat → List Registration) (p : CollisionPair) :
    List Registration :=
  invokedListeners (pairKey p).1 (regs (pairKey p).1) p ++
    invokedListeners (pairKey p).2 (regs (pairKey p).2) p

/-- Modelled from the spec: the delivery sequence of one dispatch step:
the tracked sets are visited in sorted pair order, the
(pair, event) list is computed, and for each event every matching
registration is invoked in registration order. -/
def deliverStep (regs : Nat → List Registration)
    (prev curr : List CollisionPair) :
    List (CollisionPair × EventType × Registration) :=
  concatAll ((stepEvents (sortPairs prev) (sortPairs curr)).map
    (fun pe => (listenersFor regs pe.1).map (fun r => (pe.1, pe.2, r))))

theorem sortPairs_eq_of_perm {l1 l2 : List CollisionPair} (h : l1.Perm l2)
    (hd : l1.Pairwise (fun a b => pairKey a ≠ pairKey b)) :
    sortPairs l1 = sortPairs l2 := by
  have hsymm : ∀ {x y : CollisionPair},
      pairKey x ≠ pairKey y → pairKey y ≠ pairKey x :=
    fun hxy => fun hyx => hxy hyx.symm
  have hs1 : List.Sorted pairLe (sortPairs l1) :=
    List.sorted_insertionSort pairLe l1
  have hs2 : List.Sorted pairLe (sortPairs l2) :=
    List.sorted_insertionSort pairLe l2
  have hperm1 : (sortPairs l1).Perm l1 := List.perm_insertionSort pairLe l1
  have hperm2 : (sortPairs l2).Perm l2 := List.perm_insertionSort pairLe l2
  have hp12 : (sortPairs l1).Perm (sortPairs l2) :=
    hperm1.trans (h.trans hperm2.symm)
  have hd1 : (sortPairs l1).Pairwise (fun a b => pairKey a ≠ pairKey b) :=
    (hperm1.pairwise_iff hsymm).mpr hd
  have hd2 : (sortPairs l2).Pairwise (fun a b => pairKey a ≠ pairKey b) :=
    (hperm2.pairwise_iff hsymm).mpr ((h.pairwise_iff hsymm).mp hd)
  have hst1 : List.Sorted pairLt (sortPairs l1) :=
    (hs1.and hd1).imp (fun hab => hab.1.resolve_right hab.2)
  have hst2 : List.Sorted pairLt (sortPairs l2) :=
    (hs2.and hd2).imp (fun hab => hab.1.resolve_right hab.2)
  exact List.eq_of_perm_of_sorted hp12 hst1 hst2

/-- Claim C9: given identical contact-pair output from the simulator (the
same previous and current touching sets, possibly enumerated in different
orders, with no duplicate pairs) and identical listener registrations, two
runs of the dispatch protocol produce the same sequence of
(pair, eventKind, listener) deliveries; the pairs are visited in the fixed
total order given by the CollisionPair ordering, and within one pair each
listeners of each participant are invoked in registration order (the invoked
registrations form a sublist of the registry). -/
theorem dispatch_deterministic (regs : Nat → List Registration)
    (prev1 prev2 curr1 curr2 : List CollisionPair)
    (hp : prev1.Perm prev2) (hc : curr1.Perm curr2)
    (hdp : prev1.Pairwise (fun a b => pairKey a ≠ pairKey b))
    (hdc : curr1.Pairwise (fun a b => pairKey a ≠ pairKey b)) :
    deliverStep regs prev1 curr1 = deliverStep regs prev2 curr2 ∧
    List.Sorted pairLe (sortPairs curr1) ∧
    ∀ (owner : Nat) (p : CollisionPair),
      List.Sublist (invokedListeners owner (regs owner) p) (regs owner) := by
  refine ⟨?_, List.sorted_insertionSort pairLe curr1, ?_⟩
  · unfold deliverStep
    rw [sortPairs_eq_of_perm hp hdp, sortPairs_eq_of_perm hc hdc]
  · intro owner p
    unfold invokedListeners
    by_cases hco : pairContains p owner = true
    · rw [if_pos hco]
      exact List.filter_sublist (regs owner)
    · rw [if_neg hco]
      exact List.nil_sublist (regs owner)

/-- Witness for C9 at a concrete input: the same two-pair contact set
enumerated in the two possible orders yields the same deliveries. -/
theorem dispatch_deterministic_witness :
    deliverStep (fun _ => [Registration.mk 9 none]) []
      [CollisionPair.mk 2 1, CollisionPair.mk 1 3] =
    deliverStep (fun _ => [Registration.mk 9 none]) []
      [CollisionPair.mk 1 3, CollisionPair.mk 2 1] :=
  (dispatch_deterministic (fun _ => [Registration.mk 9 none]) [] []
    [CollisionPair.mk 2 1, CollisionPair.mk 1 3]
    [CollisionPair.mk 1 3, CollisionPair.mk 2 1]
    (List.Perm.refl [])
    (List.Perm.swap (CollisionPair.mk 1 3) (CollisionPair.mk 2 1) [])
    (by decide) (by decide)).1

end gameplay
